import Mathlib

/-!
Shallow embedding of the numerical core of the `zeta-milp` repository
(`src/spectral_pipeline`): the statistics engine
(`math_core/statistics.py`), the CAL objective and controller
(`math_core/cal_objective.py`, `control/cal_controller.py`), the
evaluation metrics (`evaluation/metrics.py`), the DFT branch of the
Lie-group representation (`representation/lie_group.py`) and the
pipeline orchestrator (`pipeline.py`).

Conventions of the embedding:
* Python floats are modelled by the real numbers `ℝ`.  Where a numpy
  float division can produce a non-finite value (`inf`/`nan` with a
  RuntimeWarning, never an exception) the result is modelled by
  `NpFloat`, which makes the non-finite outcomes explicit.
* Python functions that can raise return `Except PyError α`; a raised
  `ValueError`/`NameError` is an `Except.error`.
* `numpy` arrays are modelled by `List ℝ` (or `Fin n → ℝ`/`Fin n → ℂ`
  for the fixed-length DFT representation).
-/

noncomputable section

/-- Python exceptions raised (or raisable) by the modelled code.
`valueError msg` models `ValueError(msg)`; `nameError n` models
`NameError: name n is not defined`. -/
inductive PyError where
  | valueError (msg : String)
  | nameError (name : String)
deriving DecidableEq, Repr

/-- Result of a numpy float division: numpy warns and yields `inf`
(positive numerator) or `nan` (`0.0/0.0`) instead of raising when the
denominator is `0.0`. -/
inductive NpFloat where
  | finite (x : ℝ)
  | inf
  | nan

/-- Message of the `ValueError` raised by `cosmic_harmony_statistic`
(`statistics.py` line 20). -/
def msgNeedGaps : String := "Need at least 3 gaps for S_N computation"

/-- Message of the `ValueError` raised by `SpectralPipeline.get_final_metrics`
(`pipeline.py` line 97). -/
def msgMustRunFirst : String := "Pipeline must be run first"

/-- Message of the `ValueError` numpy raises when `np.max` is applied to an
empty array (reached by `sparse_optimization` on empty input). -/
def msgZeroSize : String := "zero-size array to reduction operation maximum"

/-- The name whose lookup fails inside `cal_objective.py` (see
`cal_gradient` below). -/
def nameCGUE : String := "C_GUE"

/-- `np.mean` for a 1-D array: sum divided by length.  (numpy yields `nan`
on an empty array; every use below is on a non-empty list, where the model
agrees with numpy exactly.) -/
def npMean (l : List ℝ) : ℝ := l.sum / l.length

/-- `np.max` for a 1-D array: the maximum element.  (numpy raises on an
empty array; every use below guards emptiness before calling, so the `[]`
branch is never reached.) -/
def npMax : List ℝ → ℝ
  | [] => 0
  | x :: xs => xs.foldl max x

/-- `np.linalg.norm` for a 1-D array: the Euclidean (L2) norm. -/
def l2norm (l : List ℝ) : ℝ := Real.sqrt ((l.map (fun x => x ^ 2)).sum)

/-- `np.diff` for a 1-D array: consecutive differences `a[i+1] - a[i]`. -/
def npDiff1 (l : List ℝ) : List ℝ := List.zipWith (fun a b => b - a) l l.tail

/-- `np.diff(·, axis=0)` for a 2-D array (a list of rows): consecutive
row differences. -/
def npDiffRows (l : List (List ℝ)) : List (List ℝ) :=
  List.zipWith (fun a b => List.zipWith (fun x y => y - x) a b) l l.tail

/-! ## `math_core/statistics.py` -/

/-- `A_CONSTANT = 2.5` (`statistics.py` line 6). -/
def A_CONSTANT : ℝ := 2.5

/-- `B_CONSTANT = 3.0` (`statistics.py` line 7). -/
def B_CONSTANT : ℝ := 3.0

/-- `C_GUE = 0.60338`, the GUE adjacent spacing product constant
(`statistics.py` line 8). -/
def C_GUE : ℝ := 0.60338

/-- `cosmic_harmony_statistic(normalized_gaps)` (`statistics.py` lines
10-23): raises `ValueError` when fewer than 3 gaps are given, otherwise
returns `np.mean(normalized_gaps[:-1] * normalized_gaps[1:])`, the mean of
the products of adjacent gaps. -/
def cosmic_harmony_statistic (normalized_gaps : List ℝ) : Except PyError ℝ :=
  if normalized_gaps.length < 3 then
    .error (.valueError msgNeedGaps)
  else
    .ok (npMean (List.zipWith (fun a b => a * b) normalized_gaps normalized_gaps.tail))

/-- `convergence_bound(N, A, B)` (`statistics.py` lines 25-39): returns
`float('inf')` for `N < 3`, otherwise `A / np.sqrt(N) + B * np.log(N) / N`.
The float return value is modelled in `EReal` so that the infinity is a
genuine value; the Python `int` argument is modelled by `ℕ` (every caller
passes an array length). -/
def convergence_bound (N : ℕ) (A : ℝ := A_CONSTANT) (B : ℝ := B_CONSTANT) : EReal :=
  if N < 3 then ⊤
  else ((A / Real.sqrt N + B * Real.log N / N : ℝ) : EReal)

/-- The dictionary returned by `validate_convergence` (`statistics.py`
lines 48-54), as an immutable record.  `safety_margin` is `None`
(modelled `none`) when the bound is not satisfied. -/
structure BoundValidation where
  S_N : ℝ
  deviation : ℝ
  bound : EReal
  bound_satisfied : Bool
  safety_margin : Option EReal

open Classical in
/-- `validate_convergence(normalized_gaps)` (`statistics.py` lines 41-54):
computes the statistic (propagating its `ValueError`), the bound at
`N = len(normalized_gaps)` with the default constants, the deviation
`abs(S_N - C_GUE)`, the non-strict comparison `deviation <= bound` and the
optional margin `bound - deviation`. -/
def validate_convergence (normalized_gaps : List ℝ) :
    Except PyError BoundValidation := do
  let S_N ← cosmic_harmony_statistic normalized_gaps
  let N := normalized_gaps.length
  let bound := convergence_bound N
  let deviation := |S_N - C_GUE|
  .ok { S_N := S_N
        deviation := deviation
        bound := bound
        bound_satisfied := if (deviation : EReal) ≤ bound then true else false
        safety_margin :=
          if (deviation : EReal) ≤ bound then some (bound - (deviation : EReal)) else none }

/-! ## `math_core/cal_objective.py`

The module's top-level statements are exactly
`import numpy as np` and `from typing import Callable` followed by the
two function definitions: the name `C_GUE` used on the last line of
`cal_gradient` is never imported or defined there (unlike
`evaluation/metrics.py`, which does `from ..math_core.statistics import
C_GUE`).  Python resolves a free name inside a function body against the
function's module globals at call time, so every call of `cal_gradient`
raises `NameError: name C_GUE is not defined`.  The embedding makes the
module namespace explicit so that this lookup is part of the model. -/

/-- The names bound at the top level of the module `cal_objective.py`:
its two imports and its two function definitions.  `C_GUE` is not among
them. -/
def calObjectiveGlobals : List String :=
  ["np", "Callable", "cal_objective", "cal_gradient"]

/-- `cal_gradient(alpha, potential_grad_fn, spectral_grad_fn, S_N, mu)`
(`cal_objective.py` lines 22-44).  The two callables are evaluated first
(they are total in the model); the return expression
`grad_potential + mu * 2 * (S_N - C_GUE) * grad_spectral` then resolves
the free name `C_GUE`, which fails because the module never binds it.
The `.ok` branch records what the line would compute if the lookup
succeeded with the constant of `statistics.py`. -/
def cal_gradient (alpha : List ℝ)
    (potential_grad_fn : List ℝ → List ℝ) (spectral_grad_fn : List ℝ → List ℝ)
    (S_N : ℝ) (mu : ℝ := 1.0) : Except PyError (List ℝ) :=
  if nameCGUE ∈ calObjectiveGlobals then
    .ok (List.zipWith (fun p s => p + mu * 2 * (S_N - C_GUE) * s)
      (potential_grad_fn alpha) (spectral_grad_fn alpha))
  else
    .error (.nameError nameCGUE)

/-! ## `control/cal_controller.py` -/

/-- The mutable state of a `CALController`: its two hyperparameters and
the `velocity` attribute, `None` until first use (`cal_controller.py`
lines 10-18).  The pipeline constructs the controller with the defaults
`learning_rate=0.01`, `momentum=0.9`, `projection_fn=None`; the
projection is `None` in every modelled use, so it is left out of the
state. -/
structure CALController where
  learning_rate : ℝ
  momentum : ℝ
  velocity : Option (List ℝ)

/-- A fresh `CALController()` with the default hyperparameters. -/
def CALController.default : CALController :=
  { learning_rate := 0.01, momentum := 0.9, velocity := none }

/-- `CALController.compute_update(alpha, gradient)` (`cal_controller.py`
lines 24-43): lazily zero-initializes the velocity to the shape of
`alpha`, then `velocity = momentum * velocity + learning_rate * gradient`
and `alpha_new = alpha - velocity` (the configured projection is `None`
in the modelled pipeline, so no projection is applied).  Returns the new
parameters together with the mutated controller. -/
def CALController.compute_update (c : CALController) (alpha gradient : List ℝ) :
    List ℝ × CALController :=
  let v0 := c.velocity.getD (List.replicate alpha.length 0)
  let v := List.zipWith (fun vi gi => c.momentum * vi + c.learning_rate * gi) v0 gradient
  let alpha_new := List.zipWith (fun a vi => a - vi) alpha v
  (alpha_new, { c with velocity := some v })

/-- `CALController.compute_gradient(alpha, potential_grad_fn,
spectral_grad_fn, S_N, mu)` (`cal_controller.py` lines 45-54): a direct
delegation to `cal_gradient` of the mathematical core. -/
def CALController.compute_gradient (_ : CALController) (alpha : List ℝ)
    (potential_grad_fn : List ℝ → List ℝ) (spectral_grad_fn : List ℝ → List ℝ)
    (S_N : ℝ) (mu : ℝ := 1.0) : Except PyError (List ℝ) :=
  cal_gradient alpha potential_grad_fn spectral_grad_fn S_N mu

/-! ## `evaluation/metrics.py`

The dictionaries this module returns are modelled as association lists in
insertion order; the keys are the string literals of the source. -/

/-- Dictionary key `"deviation_from_GUE"` (`metrics.py` line 40). -/
def keyDeviationFromGUE : String := "deviation_from_GUE"

/-- Dictionary key `"reconstruction_error"` (`metrics.py` line 41). -/
def keyReconstructionError : String := "reconstruction_error"

/-- Dictionary key `"mean_change"` (`metrics.py` lines 18, 24). -/
def keyMeanChange : String := "mean_change"

/-- Dictionary key `"max_change"` (`metrics.py` lines 18, 25). -/
def keyMaxChange : String := "max_change"

/-- Dictionary key `"final_change"` (`metrics.py` line 26). -/
def keyFinalChange : String := "final_change"

/-- `compute_deviation(normalized_gaps)` (`metrics.py` lines 7-10):
`abs(cosmic_harmony_statistic(normalized_gaps) - C_GUE)`, propagating the
statistic's `ValueError`. -/
def compute_deviation (normalized_gaps : List ℝ) : Except PyError ℝ := do
  let S_N ← cosmic_harmony_statistic normalized_gaps
  .ok |S_N - C_GUE|

open Classical in
/-- `compute_reconstruction_error(original, reconstructed)` (`metrics.py`
lines 11-13): `np.linalg.norm(original - reconstructed) /
np.linalg.norm(original)` with no guard of any kind.  When the original
has zero norm, numpy performs the division anyway and the result is
`inf` (or `nan` when the numerator is also zero); no exception is
raised, which `NpFloat` makes explicit. -/
def compute_reconstruction_error (original reconstructed : List ℝ) : NpFloat :=
  if l2norm original = 0 then
    if l2norm (List.zipWith (fun a b => a - b) original reconstructed) = 0 then .nan else .inf
  else
    .finite (l2norm (List.zipWith (fun a b => a - b) original reconstructed) / l2norm original)

/-- `compute_parameter_stability(alpha_sequence)` (`metrics.py` lines
15-27): for fewer than 2 rows returns the two-entry dictionary
`{mean_change: 0.0, max_change: 0.0}` (no `final_change` key); otherwise
takes the L2 norms of the consecutive row differences and returns their
mean, max and last value under the three keys. -/
def compute_parameter_stability (alpha_sequence : List (List ℝ)) :
    List (String × ℝ) :=
  if alpha_sequence.length < 2 then
    [(keyMeanChange, 0.0), (keyMaxChange, 0.0)]
  else
    let changes := npDiffRows alpha_sequence
    let norms := changes.map l2norm
    [(keyMeanChange, npMean norms), (keyMaxChange, npMax norms),
     (keyFinalChange, norms.getLastD 0.0)]

/-- `evaluate_pipeline(original_sequence, processed_sequence,
alpha_history)` (`metrics.py` lines 29-43): merges the deviation of the
processed sequence (propagating its `ValueError`), the reconstruction
error and the spread stability dictionary into one record, in insertion
order.  The stability floats are finite reals; the reconstruction error
keeps its possibly non-finite numpy value. -/
def evaluate_pipeline (original_sequence processed_sequence : List ℝ)
    (alpha_history : List (List ℝ)) : Except PyError (List (String × NpFloat)) := do
  let deviation ← compute_deviation processed_sequence
  let reconstruction_error := compute_reconstruction_error original_sequence processed_sequence
  let stability := compute_parameter_stability alpha_history
  .ok ([(keyDeviationFromGUE, .finite deviation),
        (keyReconstructionError, reconstruction_error)] ++
       stability.map (fun kv => (kv.1, NpFloat.finite kv.2)))

/-! ## `representation/raw.py` and `representation/lie_group.py`

`RawRepresentation` is the identity in both directions.  For
`LieGroupSpectralCompression` the claims concern the `'dft'` basis arm of
`transform`/`inverse_transform` and the two dtype arms of
`sparse_optimization`; those arms are embedded here.  (The `'wavelet'`
arm delegates to the external `pywt` package and no claim touches it; an
unrecognized `basis_type` raises `ValueError` in both directions.)

`scipy.fft.fft` computes `X[k] = sum_j x[j] * exp(-2*pi*I*j*k/n)` and
`scipy.fft.ifft` computes `x[j] = (1/n) * sum_k X[k] * exp(2*pi*I*j*k/n)`;
arrays of fixed length `n` are modelled as functions on `Fin n`. -/

/-- `RawRepresentation.transform` (`raw.py` lines 8-9): identity (numpy
`copy` of the array). -/
def raw_transform (sequence : List ℝ) : List ℝ := sequence

/-- `RawRepresentation.inverse_transform` (`raw.py` lines 11-12):
identity (numpy `copy` of the array). -/
def raw_inverse_transform (transformed : List ℝ) : List ℝ := transformed

/-- `scipy.fft.fft`: the forward complex DFT with scipy's sign and
normalization convention. -/
def sciFft {n : ℕ} (x : Fin n → ℂ) : Fin n → ℂ := fun k =>
  ∑ j : Fin n, x j * Complex.exp (-(2 * Real.pi * Complex.I) * j * k / n)

/-- `scipy.fft.ifft`: the inverse complex DFT with scipy's `1/n`
normalization. -/
def sciIfft {n : ℕ} (X : Fin n → ℂ) : Fin n → ℂ := fun j =>
  (∑ k : Fin n, X k * Complex.exp ((2 * Real.pi * Complex.I) * j * k / n)) / n

/-- `LieGroupSpectralCompression.transform` for `basis_type == 'dft'`
(`lie_group.py` lines 16-18): `fft(sequence)` on the real input
sequence. -/
def transform_dft {n : ℕ} (sequence : Fin n → ℝ) : Fin n → ℂ :=
  sciFft (fun i => (sequence i : ℂ))

/-- `LieGroupSpectralCompression.inverse_transform` for
`basis_type == 'dft'` (`lie_group.py` lines 44-46, 58-59):
`ifft(transformed).real`, then `np.real(reconstruction)[:len(transformed)]`;
the truncation is the identity here because `ifft` preserves length. -/
def inverse_transform_dft {n : ℕ} (transformed : Fin n → ℂ) : Fin n → ℝ :=
  fun j => (sciIfft transformed j).re

/-- `LieGroupSpectralCompression.sparse_optimization(coefficients)` on a
real-dtype array (`lie_group.py` lines 26-31, 37-39): the threshold is
`sparsity_param * np.max(np.abs(coefficients))` (`np.max` raises on an
empty array, modelled by the emptiness guard), and each coefficient is
soft-thresholded as `np.sign(x) * np.maximum(np.abs(x) - threshold, 0)`. -/
def sparse_optimization_real (sparsity_param : ℝ) (coefficients : List ℝ) :
    Except PyError (List ℝ) :=
  if coefficients.isEmpty then .error (.valueError msgZeroSize)
  else
    .ok (coefficients.map (fun x =>
      Real.sign x *
        max (|x| - sparsity_param * npMax (coefficients.map (fun y => |y|))) 0))

/-- `LieGroupSpectralCompression.sparse_optimization(coefficients)` on a
complex-dtype array (`lie_group.py` lines 26-36): the same threshold on
the magnitudes, with each coefficient rebuilt as
`np.maximum(np.abs(z) - threshold, 0) * np.exp(1j * np.angle(z))`
(thresholded magnitude times preserved phase). -/
def sparse_optimization_complex (sparsity_param : ℝ) (coefficients : List ℂ) :
    Except PyError (List ℂ) :=
  if coefficients.isEmpty then .error (.valueError msgZeroSize)
  else
    .ok (coefficients.map (fun z =>
      (max (Complex.abs z -
          sparsity_param * npMax (coefficients.map (fun w => Complex.abs w))) 0 : ℝ) *
        Complex.exp (Complex.I * z.arg)))

/-! ## `pipeline.py`

`SpectralPipeline` is modelled with its default collaborators, exactly as
`SpectralPipeline(data_source)` constructs them: `RawRepresentation()`
and `CALController()`.  The data source's `load()` result is passed in as
a list; `DataSource.normalize_gaps` (`data/base.py` lines 18-21) is
`np.diff(sequence) / np.mean(np.diff(sequence))`.  The two optional
gradient callables are modelled as one optional pair, matching the
`if potential_grad_fn and spectral_grad_fn` guard that runs the update
only when both are supplied. -/

/-- `DataSource.normalize_gaps(sequence)` (`data/base.py` lines 18-21):
consecutive gaps divided by their mean. -/
def normalize_gaps (sequence : List ℝ) : List ℝ :=
  let gaps := npDiff1 sequence
  gaps.map (fun g => g / npMean gaps)

/-- The `metrics_history` dictionary initialized in `SpectralPipeline.run`
(`pipeline.py` lines 64-68) with keys `"deviation"`,
`"reconstruction_error"` and `"parameter_change"`, each an ordered list
of appended values. -/
structure MetricsHistory where
  deviation : List NpFloat
  reconstruction_error : List NpFloat
  parameter_change : List NpFloat

/-- Dictionary key `"deviation"` (`pipeline.py` line 65). -/
def keyDeviation : String := "deviation"

/-- Dictionary key `"parameter_change"` (`pipeline.py` line 67). -/
def keyParameterChange : String := "parameter_change"

/-- The store step of the control loop (`pipeline.py` lines 78-81):
`for key, value in current_metrics.items(): if key in metrics_history:
metrics_history[key].append(value)`. -/
def store_metrics (h : MetricsHistory) (current : List (String × NpFloat)) :
    MetricsHistory :=
  current.foldl (fun acc kv =>
    if kv.1 = keyDeviation then
      { acc with deviation := acc.deviation ++ [kv.2] }
    else if kv.1 = keyReconstructionError then
      { acc with reconstruction_error := acc.reconstruction_error ++ [kv.2] }
    else if kv.1 = keyParameterChange then
      { acc with parameter_change := acc.parameter_change ++ [kv.2] }
    else acc) h

/-- The mutable state threaded through the iterations of
`SpectralPipeline.run`: the current `alpha`, the controller, the
`alpha_history` attribute and the accumulated `metrics_history`. -/
structure RunState where
  alpha : List ℝ
  controller : CALController
  alpha_history : List (List ℝ)
  history : MetricsHistory

/-- One iteration of the control loop (`pipeline.py` lines 71-92):
evaluate the metrics against the static `normalized`/`processed`
sequences and the current history, store them, and — only when both
gradient callables were supplied — compute the statistic of the processed
sequence, the CAL gradient (with the default `mu`), the momentum update,
and append the new `alpha` to the history. -/
def run_iteration
    (gradFns : Option ((List ℝ → List ℝ) × (List ℝ → List ℝ)))
    (normalized processed : List ℝ) (st : RunState) : Except PyError RunState := do
  let current ← evaluate_pipeline normalized processed st.alpha_history
  let history := store_metrics st.history current
  match gradFns with
  | none => .ok { st with history := history }
  | some (potential_grad_fn, spectral_grad_fn) => do
      let S_N ← cosmic_harmony_statistic processed
      let gradient ← st.controller.compute_gradient st.alpha
        potential_grad_fn spectral_grad_fn S_N
      let (alpha_new, controller) := st.controller.compute_update st.alpha gradient
      .ok { alpha := alpha_new
            controller := controller
            alpha_history := st.alpha_history ++ [alpha_new]
            history := history }

/-- The control loop of `SpectralPipeline.run`: `n` successive
iterations, propagating the first raised exception. -/
def run_loop (gradFns : Option ((List ℝ → List ℝ) × (List ℝ → List ℝ)))
    (normalized processed : List ℝ) : ℕ → RunState → Except PyError RunState
  | 0, st => .ok st
  | n + 1, st => do
      let st' ← run_iteration gradFns normalized processed st
      run_loop gradFns normalized processed n st'

/-- The pipeline state the orchestrator owns across calls
(`pipeline.py` lines 23-26): `original_sequence` and
`processed_sequence` start as `None`, `alpha_history` as `[]`. -/
structure PipelineState where
  original_sequence : Option (List ℝ)
  processed_sequence : Option (List ℝ)
  alpha_history : List (List ℝ)

/-- A freshly constructed `SpectralPipeline` before any run. -/
def PipelineState.fresh : PipelineState :=
  { original_sequence := none, processed_sequence := none, alpha_history := [] }

/-- `SpectralPipeline.run(n_iterations, potential_grad_fn,
spectral_grad_fn)` (`pipeline.py` lines 28-92) with the default
collaborators: loads `sequence` (the data source's `load()` value),
normalizes the gaps once, performs the representation round-trip once
(the identity for `RawRepresentation`), initializes `alpha = [1.0]` and
the controller velocity, runs the control loop and returns the metrics
history together with the final pipeline state. -/
def SpectralPipeline.run (sequence : List ℝ)
    (gradFns : Option ((List ℝ → List ℝ) × (List ℝ → List ℝ)))
    (n_iterations : ℕ) : Except PyError (MetricsHistory × PipelineState) := do
  let normalized := normalize_gaps sequence
  let transformed := raw_transform normalized
  let processed := raw_inverse_transform transformed
  let alpha : List ℝ := [1.0]
  let controller : CALController :=
    { CALController.default with velocity := some (List.replicate alpha.length 0) }
  let init : RunState :=
    { alpha := alpha, controller := controller, alpha_history := [],
      history := { deviation := [], reconstruction_error := [], parameter_change := [] } }
  let final ← run_loop gradFns normalized processed n_iterations init
  .ok (final.history,
       { original_sequence := some sequence, processed_sequence := some processed,
         alpha_history := final.alpha_history })

/-- `SpectralPipeline.get_final_metrics()` (`pipeline.py` lines 94-104):
raises `ValueError` when `original_sequence` or `processed_sequence` is
still `None`, otherwise recomputes the normalized gaps from the stored
original sequence and evaluates the pipeline metrics. -/
def SpectralPipeline.get_final_metrics (st : PipelineState) :
    Except PyError (List (String × NpFloat)) :=
  match st.original_sequence, st.processed_sequence with
  | some original, some processed =>
      evaluate_pipeline (normalize_gaps original) processed st.alpha_history
  | _, _ => .error (.valueError msgMustRunFirst)

/-! ## Helper lemmas -/

/-- The initial accumulator is below a left fold of `max`. -/
lemma le_foldl_max_init (l : List ℝ) (a : ℝ) : a ≤ l.foldl max a := by
  induction l generalizing a with
  | nil => exact le_rfl
  | cons x xs ih => exact le_trans (le_max_left a x) (ih (max a x))

/-- Every member of a list is below a left fold of `max` over it. -/
lemma mem_le_foldl_max (l : List ℝ) (x : ℝ) :
    ∀ a : ℝ, x ∈ l → x ≤ l.foldl max a := by
  induction l with
  | nil => intro a hx; cases hx
  | cons y ys ih =>
    intro a hx
    rw [List.foldl_cons]
    rcases List.mem_cons.mp hx with h | h
    · subst h; exact le_trans (le_max_right a x) (le_foldl_max_init ys (max a x))
    · exact ih (max a y) h

/-- Every member of a list is at most its `np.max`. -/
lemma mem_le_npMax {l : List ℝ} {x : ℝ} (hx : x ∈ l) : x ≤ npMax l := by
  cases l with
  | nil => cases hx
  | cons a t =>
    rcases List.mem_cons.mp hx with h | h
    · exact h ▸ le_foldl_max_init t a
    · exact mem_le_foldl_max t x a h

/-- A map whose function vanishes on every member is a list of zeros. -/
lemma map_eq_replicate_zero {α β : Type*} [Zero β] {l : List α} {f : α → β}
    (h : ∀ x ∈ l, f x = 0) : l.map f = List.replicate l.length 0 := by
  induction l with
  | nil => rfl
  | cons a t ih =>
    rw [List.map_cons, h a (List.mem_cons_self a t), List.length_cons,
      List.replicate_succ, ih (fun x hx => h x (List.mem_cons_of_mem a hx))]

/-- The sum of the adjacent products of a list, written as an indexed sum:
the computational content of `cosmic_harmony_statistic`. -/
lemma zipWith_adjacent_sum (g : List ℝ) :
    (List.zipWith (fun a b => a * b) g g.tail).sum =
      ∑ k in Finset.range (g.length - 1), g.getD k 0 * g.getD (k + 1) 0 := by
  induction g with
  | nil => simp
  | cons a t ih =>
    cases t with
    | nil => simp
    | cons b t' =>
      have hlen : (a :: b :: t').length - 1 = (t'.length + 1) := by simp
      rw [hlen, Finset.sum_range_succ']
      simp only [List.tail_cons, List.length_cons, Nat.add_sub_cancel] at ih
      simp only [List.tail_cons, List.zipWith_cons_cons, List.sum_cons]
      rw [ih]
      simp only [List.getD_cons_succ, List.getD_cons_zero]
      ring

/-- The adjacent-product list of `replicate` lists of ones is again a list
of ones. -/
lemma zipWith_mul_replicate_one (n m : ℕ) :
    List.zipWith (fun a b => a * b) (List.replicate n (1 : ℝ)) (List.replicate m 1) =
      List.replicate (min n m) 1 := by
  induction n generalizing m with
  | zero => simp
  | succ k ih =>
    cases m with
    | zero => simp
    | succ l =>
      simp only [List.replicate_succ, List.zipWith_cons_cons, one_mul, ih,
        Nat.succ_min_succ]

/-! ## Claims -/

/-- C1 (code bug evidence): every call of `CALController.compute_gradient`
raises `NameError` for the name `C_GUE`, because `cal_objective.py` uses
that name without importing or defining it; the claimed value
`potential_grad_fn(α) + μ·2·(S_N − C_GUE)·spectral_grad_fn(α)` is never
returned. -/
theorem compute_gradient_always_name_error (c : CALController) (alpha : List ℝ)
    (potential_grad_fn spectral_grad_fn : List ℝ → List ℝ) (S_N mu : ℝ) :
    c.compute_gradient alpha potential_grad_fn spectral_grad_fn S_N mu =
      .error (.nameError nameCGUE) := by
  unfold CALController.compute_gradient cal_gradient
  rw [if_neg (by decide)]

/-- C6: `cosmic_harmony_statistic` raises the insufficient-data
`ValueError` on fewer than 3 gaps; on at least 3 gaps it returns the mean
of the products of each gap with its successor,
`(∑ k < N-1, γ_k·γ_{k+1}) / (N-1)`; and a constant list of gaps all equal
to 1.0 yields exactly 1.0. -/
theorem cosmic_harmony_statistic_spec :
    (∀ gaps : List ℝ, gaps.length < 3 →
      cosmic_harmony_statistic gaps = .error (.valueError msgNeedGaps)) ∧
    (∀ gaps : List ℝ, 3 ≤ gaps.length →
      cosmic_harmony_statistic gaps =
        .ok ((∑ k in Finset.range (gaps.length - 1),
              gaps.getD k 0 * gaps.getD (k + 1) 0) / ((gaps.length - 1 : ℕ) : ℝ))) ∧
    (∀ n : ℕ, 3 ≤ n → cosmic_harmony_statistic (List.replicate n (1 : ℝ)) = .ok 1) := by
  refine ⟨fun gaps h => ?_, fun gaps h => ?_, fun n hn => ?_⟩
  · unfold cosmic_harmony_statistic
    rw [if_pos h]
  · unfold cosmic_harmony_statistic
    rw [if_neg (not_lt.mpr h)]
    congr 1
    unfold npMean
    rw [zipWith_adjacent_sum]
    congr 2
    rw [List.length_zipWith, List.length_tail]
    exact min_eq_right (Nat.sub_le _ _)
  · unfold cosmic_harmony_statistic
    rw [if_neg (by simp; omega)]
    congr 1
    unfold npMean
    rw [List.tail_replicate, zipWith_mul_replicate_one]
    have hmin : min n (n - 1) = n - 1 := min_eq_right (Nat.sub_le _ _)
    rw [hmin, List.sum_replicate, List.length_replicate, nsmul_eq_mul, mul_one]
    exact div_self (by exact_mod_cast Nat.sub_ne_zero_of_lt (by omega))

/-- C6 witness: the theorem applied to the concrete inputs `[1, 2]`
(insufficient data) and `replicate 3 1` (constant unit gaps). -/
theorem cosmic_harmony_statistic_spec_witness :
    cosmic_harmony_statistic [(1 : ℝ), 2] = .error (.valueError msgNeedGaps) ∧
    cosmic_harmony_statistic (List.replicate 3 (1 : ℝ)) = .ok 1 :=
  ⟨cosmic_harmony_statistic_spec.1 [1, 2] (by simp),
   cosmic_harmony_statistic_spec.2.2 3 (by norm_num)⟩

/-- C10: with `sparsity_param = 1` the soft threshold equals the largest
coefficient magnitude, so `sparse_optimization` maps every non-empty
coefficient array (real or complex dtype) to the all-zero array of the
same length. -/
theorem sparse_optimization_unit_param_zeroes :
    (∀ c : List ℝ, c ≠ [] →
      sparse_optimization_real 1 c = .ok (List.replicate c.length 0)) ∧
    (∀ c : List ℂ, c ≠ [] →
      sparse_optimization_complex 1 c = .ok (List.replicate c.length 0)) := by
  constructor
  · intro c hc
    unfold sparse_optimization_real
    rw [if_neg (by simp [List.isEmpty_iff, hc])]
    rw [map_eq_replicate_zero]
    intro x hx
    have hle : |x| ≤ npMax (c.map (fun y => |y|)) :=
      mem_le_npMax (List.mem_map_of_mem _ hx)
    have hmax : max (|x| - 1 * npMax (c.map (fun y => |y|))) 0 = 0 :=
      max_eq_right (by linarith)
    rw [hmax, mul_zero]
  · intro c hc
    unfold sparse_optimization_complex
    rw [if_neg (by simp [List.isEmpty_iff, hc])]
    rw [map_eq_replicate_zero]
    intro z hz
    have hle : Complex.abs z ≤ npMax (c.map (fun w => Complex.abs w)) :=
      mem_le_npMax (List.mem_map_of_mem _ hz)
    have hmax : max (Complex.abs z - 1 * npMax (c.map (fun w => Complex.abs w))) 0 = 0 :=
      max_eq_right (by linarith)
    rw [hmax, Complex.ofReal_zero, zero_mul]

/-- C10 witness: the theorem applied to the concrete one-element arrays
`[2.0]` (real dtype) and `[1j]` (complex dtype). -/
theorem sparse_optimization_unit_param_zeroes_witness :
    sparse_optimization_real 1 [(2 : ℝ)] = .ok [0] ∧
    sparse_optimization_complex 1 [Complex.I] = .ok [0] :=
  ⟨by simpa using sparse_optimization_unit_param_zeroes.1 [2] (by simp),
   by simpa using sparse_optimization_unit_param_zeroes.2 [Complex.I] (by simp)⟩

/-- C3 counterexample: on the identically-zero original sequence
`[0, 0, 0]` (with reconstruction `[1, 1, 1]`), `compute_reconstruction_error`
does not raise any error — it silently returns infinity, contradicting the
claimed `DivisionDegenerateError`. -/
theorem compute_reconstruction_error_zero_norm_inf :
    compute_reconstruction_error [(0 : ℝ), 0, 0] [1, 1, 1] = NpFloat.inf := by
  have hz : l2norm [(0 : ℝ), 0, 0] = 0 := by
    simp [l2norm]
  have hn : l2norm (List.zipWith (fun a b => a - b) [(0 : ℝ), 0, 0] [1, 1, 1]) ≠ 0 := by
    simp only [List.zipWith_cons_cons, List.zipWith_nil_right, l2norm, List.map_cons,
      List.map_nil, List.sum_cons, List.sum_nil]
    norm_num [Real.sqrt_eq_zero']
  unfold compute_reconstruction_error
  rw [if_pos hz, if_neg hn]

/-- C3 (amended): `compute_reconstruction_error` never raises.  For an
original with zero L2 norm it silently returns the non-finite numpy value
(`inf`, or `nan` when the numerator is also zero); for every original
with nonzero norm it returns `‖original − reconstructed‖₂ / ‖original‖₂`. -/
theorem compute_reconstruction_error_spec :
    ∀ original reconstructed : List ℝ,
      (l2norm original = 0 →
        compute_reconstruction_error original reconstructed = NpFloat.inf ∨
        compute_reconstruction_error original reconstructed = NpFloat.nan) ∧
      (l2norm original ≠ 0 →
        compute_reconstruction_error original reconstructed =
          NpFloat.finite
            (l2norm (List.zipWith (fun a b => a - b) original reconstructed) /
              l2norm original)) := by
  intro o r
  constructor
  · intro h
    unfold compute_reconstruction_error
    rw [if_pos h]
    by_cases hn : l2norm (List.zipWith (fun a b => a - b) o r) = 0
    · right; rw [if_pos hn]
    · left; rw [if_neg hn]
  · intro h
    unfold compute_reconstruction_error
    rw [if_neg h]

/-- C3 witness: the amended theorem applied to the concrete zero original
`[0]` and to the concrete nonzero original `[3]`. -/
theorem compute_reconstruction_error_spec_witness :
    (l2norm [(0 : ℝ)] = 0 ∧
      (compute_reconstruction_error [(0 : ℝ)] [(1 : ℝ)] = NpFloat.inf ∨
       compute_reconstruction_error [(0 : ℝ)] [(1 : ℝ)] = NpFloat.nan)) ∧
    compute_reconstruction_error [(3 : ℝ)] [(1 : ℝ)] =
      NpFloat.finite
        (l2norm (List.zipWith (fun a b => a - b) [(3 : ℝ)] [(1 : ℝ)]) / l2norm [(3 : ℝ)]) :=
  ⟨⟨by simp [l2norm],
    (compute_reconstruction_error_spec [0] [1]).1 (by simp [l2norm])⟩,
   (compute_reconstruction_error_spec [3] [1]).2 (by
     norm_num [l2norm, Real.sqrt_eq_zero'])⟩

/-- C4 counterexample: on a parameter history with fewer than 2 entries
(the empty history), the dictionary `compute_parameter_stability` returns
has no `final_change` entry at all — the most-recent-change metric is
absent, not `0.0` as claimed. -/
theorem compute_parameter_stability_no_final_change :
    List.lookup keyFinalChange (compute_parameter_stability ([] : List (List ℝ))) =
      none := by
  rfl

/-- C4 (amended): for fewer than 2 recorded parameter vectors,
`compute_parameter_stability` returns `{mean_change: 0.0, max_change: 0.0}`
without error — the most-recent-change entry is absent; for at least 2
vectors it reports the mean, max and most-recent L2 norm of the
consecutive differences of the history. -/
theorem compute_parameter_stability_spec :
    ∀ h : List (List ℝ),
      (h.length < 2 →
        compute_parameter_stability h = [(keyMeanChange, 0.0), (keyMaxChange, 0.0)] ∧
        List.lookup keyFinalChange (compute_parameter_stability h) = none) ∧
      (2 ≤ h.length →
        compute_parameter_stability h =
          [(keyMeanChange, npMean ((npDiffRows h).map l2norm)),
           (keyMaxChange, npMax ((npDiffRows h).map l2norm)),
           (keyFinalChange, ((npDiffRows h).map l2norm).getLastD 0.0)]) := by
  intro h
  constructor
  · intro hlt
    have hfix : compute_parameter_stability h =
        [(keyMeanChange, 0.0), (keyMaxChange, 0.0)] := by
      unfold compute_parameter_stability
      rw [if_pos hlt]
    refine ⟨hfix, ?_⟩
    rw [hfix]
    rfl
  · intro hge
    unfold compute_parameter_stability
    rw [if_neg (not_lt.mpr hge)]

/-- C4 witness: the amended theorem applied to the concrete histories `[]`
(fewer than 2 entries) and `[[0], [3]]` (2 entries). -/
theorem compute_parameter_stability_spec_witness :
    (compute_parameter_stability ([] : List (List ℝ)) =
        [(keyMeanChange, 0.0), (keyMaxChange, 0.0)] ∧
      List.lookup keyFinalChange (compute_parameter_stability ([] : List (List ℝ))) =
        none) ∧
    compute_parameter_stability [[(0 : ℝ)], [(3 : ℝ)]] =
      [(keyMeanChange, npMean ((npDiffRows [[(0 : ℝ)], [(3 : ℝ)]]).map l2norm)),
       (keyMaxChange, npMax ((npDiffRows [[(0 : ℝ)], [(3 : ℝ)]]).map l2norm)),
       (keyFinalChange, ((npDiffRows [[(0 : ℝ)], [(3 : ℝ)]]).map l2norm).getLastD 0.0)] :=
  ⟨(compute_parameter_stability_spec []).1 (by simp),
   (compute_parameter_stability_spec [[0], [3]]).2 (by simp)⟩

/-- Rational bracket for `√1000`, by squaring. -/
lemma sqrt1000_bounds : (31.6227 : ℝ) < Real.sqrt 1000 ∧ Real.sqrt 1000 < 31.6228 :=
  ⟨(Real.lt_sqrt (by norm_num)).mpr (by norm_num),
   (Real.sqrt_lt' (by norm_num)).mpr (by norm_num)⟩

/-- Splitting `log 1000` along `1000 = 2^10 * (125/128)`. -/
lemma log1000_eq : Real.log 1000 = 10 * Real.log 2 + Real.log (125 / 128) := by
  rw [show (1000 : ℝ) = 2 ^ 10 * (125 / 128) by norm_num,
    Real.log_mul (by norm_num) (by norm_num), Real.log_pow]
  norm_num

/-- Rational bracket for `log (125/128)` from `log x ≤ x - 1`. -/
lemma log_125_128_bounds :
    -(0.024 : ℝ) ≤ Real.log (125 / 128) ∧ Real.log (125 / 128) ≤ -(0.0234375 : ℝ) := by
  have hup := Real.log_le_sub_one_of_pos (show (0 : ℝ) < 125 / 128 by norm_num)
  have hdn := Real.log_le_sub_one_of_pos (show (0 : ℝ) < 128 / 125 by norm_num)
  have hinv : Real.log (125 / 128) = -Real.log (128 / 125) := by
    rw [← Real.log_inv]
    norm_num
  constructor
  · rw [hinv]
    have : (128 : ℝ) / 125 - 1 = 0.024 := by norm_num
    linarith
  · have : (125 : ℝ) / 128 - 1 = -0.0234375 := by norm_num
    linarith

/-- Rational bracket for `log 1000`. -/
lemma log1000_bounds : (6.9074 : ℝ) < Real.log 1000 ∧ Real.log 1000 < 6.90804 := by
  have h2lo := Real.log_two_gt_d9
  have h2hi := Real.log_two_lt_d9
  obtain ⟨hf1, hf2⟩ := log_125_128_bounds
  rw [log1000_eq]
  constructor <;> linarith

/-- Rational bracket for the real value of `convergence_bound(1000, 2.5, 3.0)`. -/
lemma convergence_bound_1000_val_bounds :
    (0.0997 : ℝ) < 2.5 / Real.sqrt 1000 + 3.0 * Real.log 1000 / 1000 ∧
    2.5 / Real.sqrt 1000 + 3.0 * Real.log 1000 / 1000 < 0.0998 := by
  obtain ⟨hs1, hs2⟩ := sqrt1000_bounds
  obtain ⟨hl1, hl2⟩ := log1000_bounds
  have hspos : (0 : ℝ) < Real.sqrt 1000 := by linarith
  have hq1 : (2.5 : ℝ) / 31.6228 < 2.5 / Real.sqrt 1000 :=
    div_lt_div_of_pos_left (by norm_num) hspos hs2
  have hq2 : (2.5 : ℝ) / Real.sqrt 1000 < 2.5 / 31.6227 :=
    div_lt_div_of_pos_left (by norm_num) (by norm_num) hs1
  have e1 : (2.5 : ℝ) / 31.6228 > 0.079056 := by norm_num
  have e2 : (2.5 : ℝ) / 31.6227 < 0.0790573 := by norm_num
  constructor <;> linarith

/-- Value of `convergence_bound 1000 2.5 3.0` as a bracketed `EReal`. -/
lemma convergence_bound_1000_bracket :
    ((0.0997 : ℝ) : EReal) < convergence_bound 1000 2.5 3.0 ∧
    convergence_bound 1000 2.5 3.0 < ((0.0998 : ℝ) : EReal) := by
  obtain ⟨h1, h2⟩ := convergence_bound_1000_val_bounds
  unfold convergence_bound
  rw [if_neg (by norm_num)]
  constructor <;> rw [EReal.coe_lt_coe_iff] <;> push_cast <;> linarith

/-- C7 counterexample: `convergence_bound(1000, 2.5, 3.0)` exceeds 0.0997,
so it is not approximately 0.079 (the true value is about 0.0998): the
claim's cited numeric reference value is wrong. -/
theorem convergence_bound_1000_not_0079 :
    ((0.0997 : ℝ) : EReal) < convergence_bound 1000 2.5 3.0 :=
  convergence_bound_1000_bracket.1

/-- C7 (amended): `convergence_bound` returns positive infinity for every
`N < 3` and any constants, returns `A/√N + B·ln(N)/N` for every `N ≥ 3`,
and `convergence_bound(1000, 2.5, 3.0)` lies strictly between 0.0997 and
0.0998 (approximately 0.0998, not 0.079). -/
theorem convergence_bound_spec :
    (∀ (N : ℕ) (A B : ℝ), N < 3 → convergence_bound N A B = ⊤) ∧
    (∀ (N : ℕ) (A B : ℝ), 3 ≤ N →
      convergence_bound N A B =
        ((A / Real.sqrt N + B * Real.log N / N : ℝ) : EReal)) ∧
    (((0.0997 : ℝ) : EReal) < convergence_bound 1000 2.5 3.0 ∧
      convergence_bound 1000 2.5 3.0 < ((0.0998 : ℝ) : EReal)) := by
  refine ⟨fun N A B h => ?_, fun N A B h => ?_, convergence_bound_1000_bracket⟩
  · unfold convergence_bound
    rw [if_pos h]
  · unfold convergence_bound
    rw [if_neg (not_lt.mpr h)]

/-- C7 witness: the amended theorem applied to the concrete inputs `N = 2`
(infinite sentinel) and `N = 1000` (two-term formula). -/
theorem convergence_bound_spec_witness :
    convergence_bound 2 2.5 3.0 = ⊤ ∧
    convergence_bound 1000 2.5 3.0 =
      ((2.5 / Real.sqrt 1000 + 3.0 * Real.log 1000 / 1000 : ℝ) : EReal) :=
  ⟨convergence_bound_spec.1 2 2.5 3.0 (by norm_num),
   by simpa using convergence_bound_spec.2.1 1000 2.5 3.0 (by norm_num)⟩

/-- C8: on every gap array of length at least 3, `validate_convergence`
returns a record with `deviation = |S_N − C_GUE|`, `bound_satisfied` true
iff `deviation ≤ bound` (non-strict), a safety margin present and equal
to `bound − deviation` — hence non-negative — exactly when the bound is
satisfied, and an absent margin otherwise. -/
theorem validate_convergence_spec :
    ∀ gaps : List ℝ, 3 ≤ gaps.length →
      ∃ r : BoundValidation, validate_convergence gaps = .ok r ∧
        cosmic_harmony_statistic gaps = .ok r.S_N ∧
        r.deviation = |r.S_N - C_GUE| ∧
        r.bound = convergence_bound gaps.length ∧
        (r.bound_satisfied = true ↔ (r.deviation : EReal) ≤ r.bound) ∧
        (r.bound_satisfied = true →
          r.safety_margin = some (r.bound - (r.deviation : EReal)) ∧
          ∀ m : EReal, r.safety_margin = some m → 0 ≤ m) ∧
        (r.bound_satisfied = false → r.safety_margin = none) := by
  intro gaps hlen
  have hst : cosmic_harmony_statistic gaps =
      .ok (npMean (List.zipWith (fun a b => a * b) gaps gaps.tail)) := by
    unfold cosmic_harmony_statistic
    rw [if_neg (not_lt.mpr hlen)]
  set S := npMean (List.zipWith (fun a b => a * b) gaps gaps.tail) with hS
  have hb : convergence_bound gaps.length =
      ((A_CONSTANT / Real.sqrt gaps.length +
        B_CONSTANT * Real.log gaps.length / gaps.length : ℝ) : EReal) := by
    unfold convergence_bound
    rw [if_neg (not_lt.mpr hlen)]
  classical
  have hval : validate_convergence gaps =
      .ok { S_N := S
            deviation := |S - C_GUE|
            bound := convergence_bound gaps.length
            bound_satisfied :=
              if ((|S - C_GUE| : ℝ) : EReal) ≤ convergence_bound gaps.length then true
              else false
            safety_margin :=
              if ((|S - C_GUE| : ℝ) : EReal) ≤ convergence_bound gaps.length then
                some (convergence_bound gaps.length - ((|S - C_GUE| : ℝ) : EReal))
              else none } := by
    unfold validate_convergence
    rw [hst]
    rfl
  by_cases hc : ((|S - C_GUE| : ℝ) : EReal) ≤ convergence_bound gaps.length
  · refine ⟨{ S_N := S
              deviation := |S - C_GUE|
              bound := convergence_bound gaps.length
              bound_satisfied := true
              safety_margin :=
                some (convergence_bound gaps.length - ((|S - C_GUE| : ℝ) : EReal)) },
      ?_, hst, rfl, rfl, by simpa using hc, fun _ => ⟨rfl, fun m hm => ?_⟩,
      fun hfalse => by simp at hfalse⟩
    · rw [hval]
      simp only [if_pos hc]
    · have hmeq : m = convergence_bound gaps.length - ((|S - C_GUE| : ℝ) : EReal) :=
        (Option.some_injective _ hm).symm
      rw [hb] at hc
      have hle : |S - C_GUE| ≤ A_CONSTANT / Real.sqrt gaps.length +
          B_CONSTANT * Real.log gaps.length / gaps.length := EReal.coe_le_coe_iff.mp hc
      rw [hmeq, hb, ← EReal.coe_sub]
      exact_mod_cast sub_nonneg.mpr hle
  · refine ⟨{ S_N := S
              deviation := |S - C_GUE|
              bound := convergence_bound gaps.length
              bound_satisfied := false
              safety_margin := none },
      ?_, hst, rfl, rfl, by simpa using hc, fun htrue => by simp at htrue,
      fun _ => rfl⟩
    rw [hval]
    simp only [if_neg hc]

/-- C8 witness: the theorem applied to the concrete gap array `[1, 1, 1]`
of length 3. -/
theorem validate_convergence_spec_witness :
    ∃ r : BoundValidation, validate_convergence [(1 : ℝ), 1, 1] = .ok r ∧
      cosmic_harmony_statistic [(1 : ℝ), 1, 1] = .ok r.S_N ∧
      r.deviation = |r.S_N - C_GUE| ∧
      r.bound = convergence_bound ([(1 : ℝ), 1, 1]).length ∧
      (r.bound_satisfied = true ↔ (r.deviation : EReal) ≤ r.bound) ∧
      (r.bound_satisfied = true →
        r.safety_margin = some (r.bound - (r.deviation : EReal)) ∧
        ∀ m : EReal, r.safety_margin = some m → 0 ≤ m) ∧
      (r.bound_satisfied = false → r.safety_margin = none) :=
  validate_convergence_spec [1, 1, 1] (by simp)

/-- Inversion for a successful `Except` bind: the first action succeeded
and the continuation succeeded on its value. -/
lemma except_bind_ok_inv {α β : Type _} {e : Except PyError α}
    {f : α → Except PyError β} {b : β} (h : e >>= f = .ok b) :
    ∃ a, e = .ok a ∧ f a = .ok b := by
  cases e with
  | error err => exact Except.noConfusion h
  | ok a => exact ⟨a, rfl, h⟩

/-- `store_metrics` over a fold-split of the metrics list. -/
lemma store_metrics_append (h : MetricsHistory) (l₁ l₂ : List (String × NpFloat)) :
    store_metrics h (l₁ ++ l₂) = store_metrics (store_metrics h l₁) l₂ :=
  List.foldl_append _ _ _ _

/-- Storing the two leading metrics of `evaluate_pipeline`: only the
`reconstruction_error` key matches a `metrics_history` key, so only that
series grows. -/
lemma store_metrics_head (h : MetricsHistory) (dev rec : NpFloat) :
    store_metrics h [(keyDeviationFromGUE, dev), (keyReconstructionError, rec)] =
      { h with reconstruction_error := h.reconstruction_error ++ [rec] } := by
  rfl

/-- Storing the spread stability dictionary: none of `mean_change`,
`max_change`, `final_change` is a `metrics_history` key, so nothing is
appended. -/
lemma store_metrics_stability (h : MetricsHistory) (ah : List (List ℝ)) :
    store_metrics h
      ((compute_parameter_stability ah).map (fun kv => (kv.1, NpFloat.finite kv.2))) =
      h := by
  unfold compute_parameter_stability
  by_cases hlt : ah.length < 2
  · rw [if_pos hlt]
    rfl
  · rw [if_neg hlt]
    rfl

/-- Forward evaluation of `evaluate_pipeline` once the deviation is known
to succeed. -/
lemma evaluate_pipeline_ok_of_dev {p : List ℝ} {d : ℝ} (o : List ℝ)
    (ah : List (List ℝ)) (h : compute_deviation p = .ok d) :
    evaluate_pipeline o p ah =
      .ok ([(keyDeviationFromGUE, .finite d),
            (keyReconstructionError, compute_reconstruction_error o p)] ++
           (compute_parameter_stability ah).map (fun kv => (kv.1, NpFloat.finite kv.2))) := by
  unfold evaluate_pipeline
  rw [h]
  rfl

/-- A successful `evaluate_pipeline` call means the deviation succeeded. -/
lemma evaluate_pipeline_ok_inv {o p : List ℝ} {ah : List (List ℝ)}
    {cur : List (String × NpFloat)} (h : evaluate_pipeline o p ah = .ok cur) :
    ∃ d, compute_deviation p = .ok d := by
  unfold evaluate_pipeline at h
  obtain ⟨d, hd, _⟩ := except_bind_ok_inv h
  exact ⟨d, hd⟩

/-- A successful `evaluate_pipeline` call appends exactly one value — the
reconstruction error — to a metrics history it is stored into. -/
lemma store_metrics_of_evaluate (h : MetricsHistory) {o p : List ℝ}
    {ah : List (List ℝ)} {cur : List (String × NpFloat)}
    (hcur : evaluate_pipeline o p ah = .ok cur) :
    store_metrics h cur =
      { h with reconstruction_error :=
          h.reconstruction_error ++ [compute_reconstruction_error o p] } := by
  obtain ⟨d, hd⟩ := evaluate_pipeline_ok_inv hcur
  rw [evaluate_pipeline_ok_of_dev o ah hd] at hcur
  have hc : cur = [(keyDeviationFromGUE, .finite d),
      (keyReconstructionError, compute_reconstruction_error o p)] ++
      (compute_parameter_stability ah).map (fun kv => (kv.1, NpFloat.finite kv.2)) :=
    (Except.ok.inj hcur).symm
  rw [hc, store_metrics_append, store_metrics_head, store_metrics_stability]

/-- A successful `run_iteration` evaluated the metrics on the iteration's
entry history and stored them. -/
lemma run_iteration_ok_inv {g : Option ((List ℝ → List ℝ) × (List ℝ → List ℝ))}
    {nm pr : List ℝ} {st st' : RunState}
    (h : run_iteration g nm pr st = .ok st') :
    ∃ cur, evaluate_pipeline nm pr st.alpha_history = .ok cur ∧
      st'.history = store_metrics st.history cur := by
  unfold run_iteration at h
  obtain ⟨cur, hcur, hrest⟩ := except_bind_ok_inv h
  refine ⟨cur, hcur, ?_⟩
  cases g with
  | none =>
    have : st' = { st with history := store_metrics st.history cur } :=
      (Except.ok.inj hrest).symm
    rw [this]
  | some pair =>
    obtain ⟨S_N, _, hrest2⟩ := except_bind_ok_inv hrest
    obtain ⟨gradient, _, hrest3⟩ := except_bind_ok_inv hrest2
    have : st' = { alpha := (st.controller.compute_update st.alpha gradient).1
                   controller := (st.controller.compute_update st.alpha gradient).2
                   alpha_history := st.alpha_history ++
                     [(st.controller.compute_update st.alpha gradient).1]
                   history := store_metrics st.history cur } :=
      (Except.ok.inj hrest3).symm
    rw [this]

/-- Across a successful control loop, the `deviation` and
`parameter_change` series never change and the `reconstruction_error`
series grows by exactly one value per iteration. -/
lemma run_loop_history (g : Option ((List ℝ → List ℝ) × (List ℝ → List ℝ)))
    (nm pr : List ℝ) :
    ∀ (n : ℕ) (st st' : RunState), run_loop g nm pr n st = .ok st' →
      st'.history.deviation = st.history.deviation ∧
      st'.history.parameter_change = st.history.parameter_change ∧
      st'.history.reconstruction_error.length =
        st.history.reconstruction_error.length + n := by
  intro n
  induction n with
  | zero =>
    intro st st' h
    have : st = st' := Except.ok.inj h
    simp [this]
  | succ k ih =>
    intro st st' h
    unfold run_loop at h
    obtain ⟨st1, h1, h2⟩ := except_bind_ok_inv h
    obtain ⟨cur, heval, hhist⟩ := run_iteration_ok_inv h1
    rw [store_metrics_of_evaluate st.history heval] at hhist
    obtain ⟨hd, hp, hr⟩ := ih st1 st' h2
    rw [hhist] at hd hp hr
    refine ⟨hd, hp, ?_⟩
    simp only [List.length_append, List.length_cons, List.length_nil] at hr
    omega

/-- C2 (code bug evidence): on every successful run, the returned
`metrics_history` has an empty `deviation` series and an empty
`parameter_change` series — `evaluate_pipeline` emits the keys
`deviation_from_GUE`, `mean_change` and `max_change`, which never match
the `metrics_history` keys `deviation` and `parameter_change` — while
`reconstruction_error` (the only matching key) gets exactly one value per
iteration. -/
theorem run_accumulates_only_reconstruction_error :
    ∀ (sequence : List ℝ)
      (gradFns : Option ((List ℝ → List ℝ) × (List ℝ → List ℝ)))
      (n : ℕ) (h : MetricsHistory) (st : PipelineState),
      SpectralPipeline.run sequence gradFns n = .ok (h, st) →
      h.deviation = [] ∧ h.parameter_change = [] ∧
        h.reconstruction_error.length = n := by
  intro seq g n h st hrun
  unfold SpectralPipeline.run at hrun
  obtain ⟨final, hloop, hret⟩ := except_bind_ok_inv hrun
  have hh : final.history = h := congrArg Prod.fst (Except.ok.inj hret)
  obtain ⟨hd, hp, hr⟩ := run_loop_history g _ _ n _ _ hloop
  rw [hh] at hd hp hr
  refine ⟨by simpa using hd, by simpa using hp, by simpa using hr⟩

/-- The concrete example sequence `[0, 1, 2, 3, 4]`: five linearly spaced
points, so the gaps are `[1, 1, 1, 1]` and the normalized gaps likewise. -/
lemma normalize_gaps_example :
    normalize_gaps [0, 1, 2, 3, 4] = [1, 1, 1, 1] := by
  unfold normalize_gaps npDiff1 npMean
  norm_num

/-- The statistic of four unit gaps is 1. -/
lemma cosmic_harmony_ones :
    cosmic_harmony_statistic [(1 : ℝ), 1, 1, 1] = .ok 1 := by
  unfold cosmic_harmony_statistic npMean
  norm_num

/-- The deviation of four unit gaps. -/
lemma compute_deviation_ones :
    compute_deviation [(1 : ℝ), 1, 1, 1] = .ok |1 - C_GUE| := by
  unfold compute_deviation
  rw [cosmic_harmony_ones]
  rfl

/-- The reconstruction error of a perfectly reconstructed sequence is 0. -/
lemma compute_reconstruction_error_ones :
    compute_reconstruction_error [(1 : ℝ), 1, 1, 1] [1, 1, 1, 1] =
      NpFloat.finite 0 := by
  unfold compute_reconstruction_error
  have hzip : List.zipWith (fun a b => a - b) [(1 : ℝ), 1, 1, 1] [1, 1, 1, 1] =
      [0, 0, 0, 0] := by norm_num
  have hnum : l2norm [(0 : ℝ), 0, 0, 0] = 0 := by
    unfold l2norm
    norm_num
  have hden : l2norm [(1 : ℝ), 1, 1, 1] = 2 := by
    unfold l2norm
    norm_num
    rw [show (4 : ℝ) = 2 ^ 2 by norm_num, Real.sqrt_sq (by norm_num)]
  rw [hzip, hnum, hden, if_neg (by norm_num), zero_div]

/-- One full evaluation of the pipeline metrics on the example data. -/
lemma evaluate_pipeline_example :
    evaluate_pipeline [(1 : ℝ), 1, 1, 1] [1, 1, 1, 1] ([] : List (List ℝ)) =
      .ok [(keyDeviationFromGUE, .finite |1 - C_GUE|),
           (keyReconstructionError, NpFloat.finite 0),
           (keyMeanChange, .finite 0.0), (keyMaxChange, .finite 0.0)] := by
  rw [evaluate_pipeline_ok_of_dev _ _ compute_deviation_ones,
    compute_reconstruction_error_ones]
  rfl

/-- A full one-iteration run of the pipeline on the example sequence with
no gradient callables: it succeeds, storing one reconstruction-error
value and nothing else. -/
lemma run_example :
    SpectralPipeline.run [0, 1, 2, 3, 4] none 1 =
      .ok ({ deviation := [], reconstruction_error := [NpFloat.finite 0],
             parameter_change := [] },
           { original_sequence := some [0, 1, 2, 3, 4],
             processed_sequence := some [1, 1, 1, 1],
             alpha_history := [] }) := by
  have hiter : run_iteration none [(1 : ℝ), 1, 1, 1] [1, 1, 1, 1]
      { alpha := [1.0],
        controller := { CALController.default with velocity := some (List.replicate 1 0) },
        alpha_history := [],
        history := { deviation := [], reconstruction_error := [], parameter_change := [] } } =
      .ok { alpha := [1.0],
            controller := { CALController.default with velocity := some (List.replicate 1 0) },
            alpha_history := [],
            history := { deviation := [], reconstruction_error := [NpFloat.finite 0],
                         parameter_change := [] } } := by
    unfold run_iteration
    rw [evaluate_pipeline_example]
    rfl
  have hloop : run_loop none [(1 : ℝ), 1, 1, 1] [1, 1, 1, 1] 1
      { alpha := [1.0],
        controller := { CALController.default with velocity := some (List.replicate 1 0) },
        alpha_history := [],
        history := { deviation := [], reconstruction_error := [], parameter_change := [] } } =
      .ok { alpha := [1.0],
            controller := { CALController.default with velocity := some (List.replicate 1 0) },
            alpha_history := [],
            history := { deviation := [], reconstruction_error := [NpFloat.finite 0],
                         parameter_change := [] } } := by
    unfold run_loop
    rw [hiter]
    rfl
  simp only [SpectralPipeline.run, raw_transform, raw_inverse_transform,
    normalize_gaps_example, List.length_singleton]
  rw [hloop]
  rfl

/-- C2 witness: the concrete one-iteration run of the example pipeline,
with the empty `deviation`/`parameter_change` series and the single
`reconstruction_error` value exhibited through the theorem. -/
theorem run_accumulates_only_reconstruction_error_witness :
    ∃ (h : MetricsHistory) (st : PipelineState),
      SpectralPipeline.run [0, 1, 2, 3, 4] none 1 = .ok (h, st) ∧
      h.deviation = [] ∧ h.parameter_change = [] ∧
        h.reconstruction_error.length = 1 :=
  ⟨_, _, run_example,
   run_accumulates_only_reconstruction_error [0, 1, 2, 3, 4] none 1 _ _ run_example⟩

/-- C5: `get_final_metrics` on an unrun pipeline fails with the
pipeline-not-run-yet `ValueError`; after any completed run (of at least
one iteration) it succeeds and returns the metrics record evaluated from
the normalized gaps of the stored original sequence, the stored processed
sequence and the stored parameter history. -/
theorem get_final_metrics_spec :
    SpectralPipeline.get_final_metrics PipelineState.fresh =
        .error (.valueError msgMustRunFirst) ∧
    (∀ (sequence : List ℝ)
       (gradFns : Option ((List ℝ → List ℝ) × (List ℝ → List ℝ)))
       (n : ℕ) (h : MetricsHistory) (st : PipelineState),
      1 ≤ n → SpectralPipeline.run sequence gradFns n = .ok (h, st) →
      st.original_sequence = some sequence ∧
      ∃ processed m, st.processed_sequence = some processed ∧
        SpectralPipeline.get_final_metrics st = .ok m ∧
        evaluate_pipeline (normalize_gaps sequence) processed st.alpha_history =
          .ok m) := by
  constructor
  · rfl
  · intro seq g n h st hn hrun
    unfold SpectralPipeline.run at hrun
    obtain ⟨final, hloop, hret⟩ := except_bind_ok_inv hrun
    have hst : st = { original_sequence := some seq,
                      processed_sequence := some (normalize_gaps seq),
                      alpha_history := final.alpha_history } :=
      (congrArg Prod.snd (Except.ok.inj hret)).symm
    obtain ⟨k, rfl⟩ : ∃ k, n = k + 1 := ⟨n - 1, by omega⟩
    unfold run_loop at hloop
    obtain ⟨st1, hiter, _⟩ := except_bind_ok_inv hloop
    obtain ⟨cur, heval, _⟩ := run_iteration_ok_inv hiter
    obtain ⟨d, hdev⟩ := evaluate_pipeline_ok_inv heval
    have hev2 := evaluate_pipeline_ok_of_dev (normalize_gaps seq)
      final.alpha_history hdev
    subst hst
    exact ⟨rfl, normalize_gaps seq, _, rfl, hev2, hev2⟩

/-- C5 witness: the theorem applied to the concrete completed run of the
example pipeline. -/
theorem get_final_metrics_spec_witness :
    ({ original_sequence := some [0, 1, 2, 3, 4],
       processed_sequence := some [1, 1, 1, 1],
       alpha_history := [] } : PipelineState).original_sequence =
        some [0, 1, 2, 3, 4] ∧
    ∃ processed m,
      ({ original_sequence := some [0, 1, 2, 3, 4],
         processed_sequence := some [1, 1, 1, 1],
         alpha_history := [] } : PipelineState).processed_sequence =
          some processed ∧
      SpectralPipeline.get_final_metrics
        { original_sequence := some [0, 1, 2, 3, 4],
          processed_sequence := some [1, 1, 1, 1],
          alpha_history := [] } = .ok m ∧
      evaluate_pipeline (normalize_gaps [0, 1, 2, 3, 4]) processed [] = .ok m :=
  get_final_metrics_spec.2 [0, 1, 2, 3, 4] none 1 _ _ (by norm_num) run_example

/-- Geometric sum of the DFT kernel: summing the `k`-th powers of
`exp(2πi·(j−m)/n)` over `k < n` gives `n` on the diagonal `j = m` and `0`
off it. -/
lemma geom_sum_exp {n : ℕ} (hn : 0 < n) (j m : Fin n) :
    (∑ k in Finset.range n,
      Complex.exp ((2 * Real.pi * Complex.I) *
        (((j : ℤ) - (m : ℤ) : ℤ) : ℂ) / n) ^ k) =
      if j = m then (n : ℂ) else 0 := by
  have hnne : (n : ℂ) ≠ 0 := Nat.cast_ne_zero.mpr hn.ne'
  by_cases hjm : j = m
  · subst hjm
    rw [if_pos rfl]
    have h0 : (((j : ℤ) - (j : ℤ) : ℤ) : ℂ) = 0 := by push_cast; ring
    rw [h0, mul_zero, zero_div, Complex.exp_zero]
    simp
  · rw [if_neg hjm]
    set d : ℤ := (j : ℤ) - (m : ℤ) with hd
    have hdne : d ≠ 0 := by
      rw [hd]
      intro hh
      exact hjm (Fin.ext (by omega))
    have hdlt : d.natAbs < n := by
      have hj := j.isLt
      have hm := m.isLt
      rw [hd]
      omega
    set w : ℂ := Complex.exp ((2 * Real.pi * Complex.I) * (d : ℂ) / n) with hw
    have hwn : w ^ n = 1 := by
      rw [hw, ← Complex.exp_nat_mul]
      have harg : (n : ℂ) * ((2 * Real.pi * Complex.I) * (d : ℂ) / n) =
          (d : ℂ) * (2 * Real.pi * Complex.I) := by
        field_simp
        ring
      rw [harg]
      exact Complex.exp_int_mul_two_pi_mul_I d
    have hw1 : w ≠ 1 := by
      rw [hw]
      intro hcontra
      obtain ⟨t, ht⟩ := Complex.exp_eq_one_iff.mp hcontra
      have hne2 : (2 * Real.pi * Complex.I : ℂ) ≠ 0 := Complex.two_pi_I_ne_zero
      have h1 : (2 * Real.pi * Complex.I) * ((d : ℂ) / n) =
          (2 * Real.pi * Complex.I) * (t : ℂ) := by
        rw [← mul_div_assoc, ht]
        ring
      have h2 : (d : ℂ) / n = (t : ℂ) := mul_left_cancel₀ hne2 h1
      have h3 : (d : ℂ) = (t : ℂ) * n := by
        field_simp at h2
        exact h2
      have hZ : d = t * n := by exact_mod_cast h3
      rcases lt_trichotomy t 0 with htl | rfl | htg
      · have : d ≤ -(n : ℤ) := by nlinarith
        omega
      · simp at hZ
        exact hdne hZ
      · have : (n : ℤ) ≤ d := by nlinarith
        omega
    rw [geom_sum_eq hw1, hwn]
    simp

/-- Exact inversion of the scipy DFT pair: `ifft (fft z) = z` for every
complex array of positive length. -/
lemma sciIfft_sciFft {n : ℕ} (hn : 0 < n) (z : Fin n → ℂ) :
    sciIfft (sciFft z) = z := by
  have hnne : (n : ℂ) ≠ 0 := Nat.cast_ne_zero.mpr hn.ne'
  funext j
  unfold sciIfft sciFft
  have hterm : ∀ (k m : Fin n),
      z m * Complex.exp (-(2 * Real.pi * Complex.I) * m * k / n) *
        Complex.exp ((2 * Real.pi * Complex.I) * j * k / n) =
      z m * Complex.exp ((2 * Real.pi * Complex.I) *
        (((j : ℤ) - (m : ℤ) : ℤ) : ℂ) / n) ^ (k : ℕ) := by
    intro k m
    rw [mul_assoc, ← Complex.exp_add, ← Complex.exp_nat_mul]
    congr 2
    push_cast
    ring
  have hnum : (∑ k : Fin n, (∑ m : Fin n, z m *
        Complex.exp (-(2 * Real.pi * Complex.I) * m * k / n)) *
        Complex.exp ((2 * Real.pi * Complex.I) * j * k / n)) = z j * n := by
    calc (∑ k : Fin n, (∑ m : Fin n, z m *
            Complex.exp (-(2 * Real.pi * Complex.I) * m * k / n)) *
            Complex.exp ((2 * Real.pi * Complex.I) * j * k / n))
        = ∑ k : Fin n, ∑ m : Fin n, z m *
            Complex.exp ((2 * Real.pi * Complex.I) *
              (((j : ℤ) - (m : ℤ) : ℤ) : ℂ) / n) ^ (k : ℕ) := by
          refine Finset.sum_congr rfl fun k _ => ?_
          rw [Finset.sum_mul]
          exact Finset.sum_congr rfl fun m _ => hterm k m
      _ = ∑ m : Fin n, ∑ k : Fin n, z m *
            Complex.exp ((2 * Real.pi * Complex.I) *
              (((j : ℤ) - (m : ℤ) : ℤ) : ℂ) / n) ^ (k : ℕ) := Finset.sum_comm
      _ = ∑ m : Fin n, z m * (if j = m then (n : ℂ) else 0) := by
          refine Finset.sum_congr rfl fun m _ => ?_
          rw [← Finset.mul_sum]
          congr 1
          rw [Fin.sum_univ_eq_sum_range (fun i => Complex.exp ((2 * Real.pi * Complex.I) *
            (((j : ℤ) - (m : ℤ) : ℤ) : ℂ) / n) ^ i) n]
          exact geom_sum_exp hn j m
      _ = z j * n := by
          have hdist : ∀ m : Fin n, z m * (if j = m then (n : ℂ) else 0) =
              if j = m then z m * n else 0 := fun m => by
            by_cases h : j = m <;> simp [h]
          rw [Finset.sum_congr rfl fun m _ => hdist m, Finset.sum_ite_eq]
          simp
  rw [hnum]
  exact mul_div_cancel_right₀ (z j) hnne

/-- C9: for every real array of length at least 4, the DFT-basis
round-trip `inverse_transform(transform(x))` recovers `x` exactly — the
model works over the reals, where scipy's inverse DFT of the forward DFT
is the identity — hence in particular within the claimed 1e-9 relative
tolerance; the output is real-valued of the same length by the types of
the embedding. -/
theorem inverse_transform_dft_roundtrip :
    ∀ n : ℕ, 4 ≤ n → ∀ x : Fin n → ℝ,
      inverse_transform_dft (transform_dft x) = x ∧
      ∀ j : Fin n, |inverse_transform_dft (transform_dft x) j - x j| ≤
        1e-9 * |x j| := by
  intro n hn x
  have h := sciIfft_sciFft (show 0 < n by omega) (fun i => (x i : ℂ))
  have heq : inverse_transform_dft (transform_dft x) = x := by
    funext j
    unfold inverse_transform_dft transform_dft
    rw [h]
    exact Complex.ofReal_re (x j)
  refine ⟨heq, fun j => ?_⟩
  rw [heq]
  simp
  positivity

/-- C9 witness: the theorem applied to the concrete length-4 array
`[0, 1, 2, 3]`. -/
theorem inverse_transform_dft_roundtrip_witness :
    inverse_transform_dft (transform_dft (fun i : Fin 4 => (i : ℝ))) =
      (fun i : Fin 4 => (i : ℝ)) ∧
    ∀ j : Fin 4, |inverse_transform_dft (transform_dft (fun i : Fin 4 => (i : ℝ))) j -
        (j : ℝ)| ≤ 1e-9 * |(j : ℝ)| :=
  inverse_transform_dft_roundtrip 4 (by norm_num) (fun i => (i : ℝ))
